import Mathlib

/-!
Shallow embedding of the transaction aggregation engine of `src/app.py`
(the `get_data` endpoint of the Flask proxy for the GoodTill POS API),
together with the small date-range resolver it uses, and — where the
repository's code no longer contains a view the specification describes —
a model built from the specification's words.

Monetary amounts are embedded as rationals (`ℚ`); Python's `round(x, 2)`
is embedded as rounding `100 * x` to the nearest integer (the difference
between the half-even mode of Python floats and the half-up mode of
`round : ℚ → ℤ` is at most the half-ulp slack every rounding statement
below already carries).  Python dicts are embedded as insertion-ordered
association lists.
-/

/-- A JSON scalar as it can appear in the `total_inc_vat` field of a raw
GoodTill sale record: a number or a string. -/
inductive JVal
  | jnum (q : ℚ)
  | jstr (s : String)
  deriving Repr, DecidableEq

/-- A raw sale record as consumed by `get_data` (`src/app.py`): only the
fields the endpoint reads.  `none` means the key is absent from the JSON
object.  The raw `sale_status` field is carried but — exactly as in the
code — never read by the aggregation. -/
structure Sale where
  sales_id : Option String
  receipt_no : Option String
  total_inc_vat : Option JVal
  outlet_name : Option String
  sale_date_time : Option String
  sale_status : Option String
  items : List String
  deriving Repr, DecidableEq

/-- Digit-string value: `foldl` over decimal digits. -/
def digitsVal (l : List Char) : ℕ :=
  l.foldl (fun n c => 10 * n + (c.toNat - 48)) 0

/-- Split a character list at the first `'.'`, returning the part before
it and, when a dot occurs, the part after it. -/
def splitDot : List Char → List Char × Option (List Char)
  | [] => ([], none)
  | c :: rest =>
    if c = '.' then ([], some rest)
    else
      let p := splitDot rest
      (c :: p.1, p.2)

/-- Parse an unsigned decimal literal (`"12"`, `"12.5"`, `"12."`, `".5"`);
any other shape is rejected.  A second dot lands inside the fractional
part and fails the all-digits check, as in Python's `float`. -/
def parseUnsigned (body : List Char) : Option ℚ :=
  let p := splitDot body
  match p.2 with
  | none =>
    if body ≠ [] ∧ body.all Char.isDigit then some (digitsVal body) else none
  | some frac =>
    if (p.1 ≠ [] ∨ frac ≠ []) ∧ p.1.all Char.isDigit ∧ frac.all Char.isDigit then
      some ((digitsVal p.1 : ℚ) + (digitsVal frac : ℚ) / ((10 : ℚ) ^ frac.length))
    else none

/-- Python `float(s)` restricted to the plain signed decimal literals the
GoodTill API emits for `total_inc_vat`; `none` models the `ValueError`
Python raises on a malformed string. -/
def pyFloatStr (s : String) : Option ℚ :=
  match s.toList with
  | [] => none
  | c :: rest =>
    if c = '-' then (parseUnsigned rest).map (fun q => -q)
    else if c = '+' then parseUnsigned rest
    else parseUnsigned (c :: rest)

/-- `float(sale.get('total_inc_vat', 0))` of `src/app.py` line 98: an
absent key defaults to `0`, a number passes through, a string is parsed;
`none` models the raised `ValueError` on a malformed string. -/
def pyFloat : Option JVal → Option ℚ
  | none => some 0
  | some (.jnum q) => some q
  | some (.jstr s) => pyFloatStr s

/-- The amount the aggregation uses for a sale, with `0` in the
unreachable malformed case (used only to state specifications; the
pipeline itself propagates the failure). -/
def saleAmount (s : Sale) : ℚ :=
  (pyFloat s.total_inc_vat).getD 0

/-- One entry of the `transactions` list built at `src/app.py`
lines 101-111. -/
structure Tx where
  id : Option String
  transaction_code : Option String
  timestamp : Option String
  amount : ℚ
  tx_status : String
  payment_type : String
  currency : String
  outlet : String
  items : List String
  deriving Repr, DecidableEq

/-- Lines 101-111 of `src/app.py`: the normalized transaction built for
every sale; status, payment type and currency are hard-coded literals. -/
def mkTx (sale : Sale) (amount : ℚ) : Tx :=
  { id := sale.sales_id
    transaction_code := sale.receipt_no <|> sale.sales_id
    timestamp := sale.sale_date_time
    amount := amount
    tx_status := "SUCCESSFUL"
    payment_type := "CARD"
    currency := "GBP"
    outlet := sale.outlet_name.getD "Unknown"
    items := sale.items }

/-- `date_key = date_str[:10] if date_str else ''` of `src/app.py`
lines 124-125, with `date_str = sale.get('sale_date_time', '')`. -/
def dateKey (sale : Sale) : String :=
  let date_str := sale.sale_date_time.getD ""
  if date_str ≠ "" then date_str.take 10 else ""

/-- Python-dict accumulation of `(revenue, count)` buckets keyed by a
string, preserving insertion order (used for `daily_agg` and
`outlet_agg`). -/
def bumpAgg : List (String × ℚ × ℕ) → String → ℚ → List (String × ℚ × ℕ)
  | [], k, amt => [(k, amt, 1)]
  | (k', r, c) :: rest, k, amt =>
    if k' = k then (k', r + amt, c + 1) :: rest
    else (k', r, c) :: bumpAgg rest k amt

/-- Python-dict accumulation of summed revenue keyed by a string
(`payment_types` at `src/app.py` line 116). -/
def bumpPay : List (String × ℚ) → String → ℚ → List (String × ℚ)
  | [], k, amt => [(k, amt)]
  | (k', v) :: rest, k, amt =>
    if k' = k then (k', v + amt) :: rest
    else (k', v) :: bumpPay rest k amt

/-- The accumulators of the aggregation loop of `src/app.py`
lines 90-95. -/
structure AggState where
  total_revenue : ℚ
  successful_count : ℕ
  payment_types : List (String × ℚ)
  daily_agg : List (String × ℚ × ℕ)
  transactions : List Tx
  outlet_agg : List (String × ℚ × ℕ)
  deriving Repr, DecidableEq

def initState : AggState := ⟨0, 0, [], [], [], []⟩

/-- The string shown in the `ValueError` message of Python's `float`
(only a string field can fail to convert). -/
def badStr : Option JVal → String
  | none => ""
  | some (.jnum _) => ""
  | some (.jstr s) => s

/-- One iteration of the `for sale in sales` loop of `src/app.py`
lines 97-130.  A malformed amount is the `ValueError` raised by
`float`, carried as `Except.error` with Python's message. -/
def processSale (st : AggState) (sale : Sale) : Except String AggState :=
  match pyFloat sale.total_inc_vat with
  | none =>
    .error ("could not convert string to float: " ++ badStr sale.total_inc_vat)
  | some amount =>
    let outlet := sale.outlet_name.getD "Unknown"
    let st1 : AggState :=
      { st with
        transactions := st.transactions ++ [mkTx sale amount]
        successful_count := st.successful_count + 1
        total_revenue := st.total_revenue + amount
        payment_types := bumpPay st.payment_types "CARD" amount
        outlet_agg := bumpAgg st.outlet_agg outlet amount }
    let dk := dateKey sale
    .ok (if dk ≠ "" then { st1 with daily_agg := bumpAgg st1.daily_agg dk amount } else st1)

/-- The whole aggregation loop over the fetched sales. -/
def aggSales (sales : List Sale) : Except String AggState :=
  sales.foldlM processSale initState

/-- Python `round(x, 2)` on the embedded rationals. -/
def round2 (q : ℚ) : ℚ :=
  ((round (100 * q) : ℤ) : ℚ) / 100

structure DailyEntry where
  date : String
  revenue : ℚ
  count : ℕ
  deriving Repr, DecidableEq

structure OutletEntry where
  oname : String
  revenue : ℚ
  count : ℕ
  deriving Repr, DecidableEq

/-- The `summary` object of the `/api/data` response. -/
structure Summary where
  total_revenue : ℚ
  total_transactions : ℕ
  avg_transaction : ℚ
  failed_transactions : ℕ
  payment_types : List (String × ℚ)
  deriving Repr, DecidableEq

/-- The JSON body of the `/api/data` response.  `outlets := none` models
the upstream-error body, which carries no `outlets` key at all. -/
structure ApiBody where
  summary : Summary
  daily : List DailyEntry
  outlets : Option (List OutletEntry)
  transactions : List Tx
  error : Option String
  deriving Repr, DecidableEq

/-- Key-ordering on aggregation buckets, used by Python's
`sorted(daily_agg.items())` (keys are distinct, so sorting pairs
lexicographically is sorting by key). -/
def keyLE (a b : String × ℚ × ℕ) : Prop := a.1 ≤ b.1

instance : DecidableRel keyLE := fun a b => inferInstanceAs (Decidable (a.1 ≤ b.1))
instance : IsTotal (String × ℚ × ℕ) keyLE := ⟨fun a b => le_total a.1 b.1⟩
instance : IsTrans (String × ℚ × ℕ) keyLE := ⟨fun _ _ _ => le_trans⟩

/-- `sorted_daily` of `src/app.py` lines 134-137. -/
def sortedDaily (m : List (String × ℚ × ℕ)) : List DailyEntry :=
  (List.insertionSort keyLE m).map fun p => ⟨p.1, round2 p.2.1, p.2.2⟩

/-- `outlets` of `src/app.py` lines 139-142. -/
def mkOutlets (m : List (String × ℚ × ℕ)) : List OutletEntry :=
  m.map fun p => ⟨p.1, round2 p.2.1, p.2.2⟩

/-- `avg_transaction` of `src/app.py` line 132: the explicit guard
against division by zero. -/
def pyAvg (rev : ℚ) (cnt : ℕ) : ℚ :=
  if cnt > 0 then rev / (cnt : ℚ) else 0

/-- The success response of `get_data`, `src/app.py` lines 144-155. -/
def buildResponse (st : AggState) : ApiBody :=
  { summary :=
      { total_revenue := round2 st.total_revenue
        total_transactions := st.successful_count
        avg_transaction := round2 (pyAvg st.total_revenue st.successful_count)
        failed_transactions := 0
        payment_types := st.payment_types.map fun p => (p.1, round2 p.2) }
    daily := sortedDaily st.daily_agg
    outlets := some (mkOutlets st.outlet_agg)
    transactions := st.transactions.take 100
    error := none }

def zeroSummary : Summary := ⟨0, 0, 0, 0, []⟩

/-- The upstream provider's reply as `get_data` sees it: HTTP status and
the parsed `data` array. -/
structure UpstreamResp where
  status_code : ℕ
  data : List Sale
  deriving Repr, DecidableEq

/-- `get_data` of `src/app.py` lines 57-166, from the point where the
upstream reply is available: HTTP status of the endpoint's own response
paired with its JSON body.  The non-200 branch (lines 79-85) returns
`jsonify(...)` with no status code, hence Flask's default 200; the
`except` branch (lines 157-166) returns status 500. -/
def get_data (upstream : UpstreamResp) : ℕ × ApiBody :=
  if upstream.status_code ≠ 200 then
    (200, { summary := zeroSummary, daily := [], outlets := none, transactions := [],
            error := some ("API Error: " ++ toString upstream.status_code) })
  else
    match aggSales upstream.data with
    | .ok st => (200, buildResponse st)
    | .error msg =>
      (500, { summary := zeroSummary, daily := [], outlets := some [], transactions := [],
              error := some msg })

/-- A naive timestamp: day index plus a wall-clock time of day, enough to
express `datetime` day arithmetic and the forced time components of the
`strftime` calls of `src/app.py` lines 72-73. -/
structure Instant where
  day : ℤ
  hour : ℕ
  minute : ℕ
  second : ℕ
  deriving Repr, DecidableEq

/-- `end_date - timedelta(days=d)` (`src/app.py` line 65): whole-day
subtraction keeps the time of day. -/
def subDays (t : Instant) (d : ℤ) : Instant :=
  ⟨t.day - d, t.hour, t.minute, t.second⟩

/-- `start_date.strftime("%Y-%m-%d 00:00:00")`: the rendered `from`
parameter forces the time component to midnight. -/
def fmtFrom (t : Instant) : Instant := ⟨t.day, 0, 0, 0⟩

/-- `end_date.strftime("%Y-%m-%d 23:59:59")`: the rendered `to`
parameter forces the time component to end of day. -/
def fmtTo (t : Instant) : Instant := ⟨t.day, 23, 59, 59⟩

/-- The date-range resolver of `src/app.py` lines 63-73. -/
def resolveRange (daysBack : ℤ) (now : Instant) : Instant × Instant :=
  (fmtFrom (subDays now daysBack), fmtTo now)

/-- `int(request.args.get('days', 30))` of `src/app.py` line 63: the
`/api/data` endpoint (summary, daily, outlet views) defaults `days`
to 30. -/
def dataDaysParam (q : Option ℤ) : ℤ := q.getD 30

/-- Modelled from the spec: the hourly view's endpoint is absent from
`src/app.py`; per the spec it supplies its own `daysBack` default of 7
to the same parameterized resolver. -/
def hourlyDaysParam (q : Option ℤ) : ℤ := q.getD 7

/-- A canonical transaction as the spec's hourly view consumes it:
canonical status, amount, and the hour extracted by the timestamp
normalizer when the full parse succeeded. -/
structure CTx where
  ctx_status : String
  amount : ℚ
  hour : Option (Fin 24)
  deriving Repr, DecidableEq

structure HourEntry where
  hour : ℕ
  revenue : ℚ
  count : ℕ
  deriving Repr, DecidableEq

/-- Modelled from the spec: accumulation of one canonical transaction
into the hour buckets — SUCCESSFUL records with a parsed hour are added
to their hour's bucket, all others are silently excluded. -/
def hourlyStep (buckets : List HourEntry) (t : CTx) : List HourEntry :=
  match t.hour with
  | some h =>
    if t.ctx_status = "SUCCESSFUL" then
      buckets.map fun b =>
        if b.hour = h.val then
          { b with revenue := b.revenue + t.amount, count := b.count + 1 }
        else b
    else buckets
  | none => buckets

/-- Modelled from the spec: the 24 pre-seeded zero buckets, hours
0-23. -/
def hourlySeed : List HourEntry :=
  (List.range 24).map fun h => (⟨h, 0, 0⟩ : HourEntry)

/-- Modelled from the spec: the hourly distribution view is absent from
`src/app.py` (no endpoint of the file computes it).  Per §4.3(3) of the
spec: pre-seed all 24 hour buckets (0-23) with zero, accumulate
SUCCESSFUL records by parsed hour-of-day, records whose timestamp failed
to parse are silently excluded, output sorted ascending by numeric
hour. -/
def hourlyView (txs : List CTx) : List HourEntry :=
  txs.foldl hourlyStep hourlySeed

/-! ## Derived definitions used to state and prove the claims -/

/-- Lookup in an insertion-ordered bucket list. -/
def lookupAgg : List (String × ℚ × ℕ) → String → Option (ℚ × ℕ)
  | [], _ => none
  | (k', r, c) :: rest, k => if k' = k then some (r, c) else lookupAgg rest k

/-- The normalized transactions of a sale list, in input order; `none`
when some amount is malformed (the aggregation then fails as a whole). -/
def mapTx : List Sale → Option (List Tx)
  | [] => some []
  | s :: rest =>
    match pyFloat s.total_inc_vat, mapTx rest with
    | some a, some txs => some (mkTx s a :: txs)
    | _, _ => none

/-- A sale lands in daily bucket `k` exactly when its raw timestamp is
nonempty and its first 10 characters are `k` — the spec's grouping
criterion, stated independently of `dateKey`. -/
def dailyPred (k : String) (s : Sale) : Bool :=
  (s.sale_date_time.getD "" != "") && ((s.sale_date_time.getD "").take 10 == k)

/-- The specified content of daily bucket `k`: revenue sum and count of
the sales whose raw timestamp has `k` as its 10-character prefix. -/
def dailySpec (sales : List Sale) (k : String) : Option (ℚ × ℕ) :=
  if (sales.filter (dailyPred k)).isEmpty then none
  else some (((sales.filter (dailyPred k)).map saleAmount).sum,
             (sales.filter (dailyPred k)).length)

/-- A sale with a numeric amount and a full timestamp (used as concrete
input below). -/
def saleDated : Sale :=
  ⟨some "a1", some "r1", some (.jnum 5), some "Shop", some "2024-01-02 10:00:00", none, []⟩

/-- A sale with a numeric amount but no `sale_date_time` key. -/
def saleNoDate : Sale := ⟨none, none, some (.jnum 10), none, none, none, []⟩

/-- A sale whose amount field is a malformed string. -/
def saleMalformed : Sale := ⟨none, none, some (.jstr "abc"), none, none, none, []⟩

/-- The aggregation state after the single sale `saleDated`. -/
def stDated : AggState :=
  ⟨5, 1, [("CARD", 5)], [("2024-01-02", 5, 1)], [mkTx saleDated 5], [("Shop", 5, 1)]⟩

/-! ## Generic facts about the aggregation fold -/

/-- Relational invariant for the aggregation loop, generalized over the
starting state and the already-consumed prefix. -/
theorem foldl_rel_aux (R : AggState → List Sale → Prop)
    (hstep : ∀ st acc s st', processSale st s = .ok st' → R st acc → R st' (acc ++ [s])) :
    ∀ (sales : List Sale) (st0 : AggState) (acc : List Sale) (st : AggState),
      R st0 acc → List.foldlM processSale st0 sales = .ok st → R st (acc ++ sales) := by
  intro sales
  induction sales with
  | nil =>
    intro st0 acc st h0 hf
    simp only [List.foldlM_nil] at hf
    cases hf
    simpa using h0
  | cons s rest ih =>
    intro st0 acc st h0 hf
    rw [List.foldlM_cons] at hf
    cases hps : processSale st0 s with
    | error e => rw [hps] at hf; exact absurd hf (by simp [Bind.bind, Except.bind])
    | ok st1 =>
      rw [hps] at hf
      simp only [Bind.bind, Except.bind] at hf
      have h1 := hstep st0 acc s st1 hps h0
      have h2 := ih st1 (acc ++ [s]) st h1 hf
      simpa using h2

/-- Every state reachable by `aggSales` satisfies any invariant preserved
by `processSale`. -/
theorem aggSales_rel (R : AggState → List Sale → Prop)
    (hinit : R initState [])
    (hstep : ∀ st acc s st', processSale st s = .ok st' → R st acc → R st' (acc ++ [s])) :
    ∀ sales st, aggSales sales = .ok st → R st sales := by
  intro sales st hf
  simpa using foldl_rel_aux R hstep sales initState [] st hinit hf

/-- A step that succeeds determines the parsed amount. -/
theorem processSale_ok_amount {st : AggState} {s : Sale} {st' : AggState}
    (h : processSale st s = .ok st') : pyFloat s.total_inc_vat = some (saleAmount s) := by
  unfold processSale at h
  cases hp : pyFloat s.total_inc_vat with
  | none => rw [hp] at h; exact absurd h (by simp)
  | some a => simp [saleAmount, hp]

/-- Explicit description of the successor state of one successful
step. -/
theorem processSale_ok_eq {st : AggState} {s : Sale} {st' : AggState}
    (h : processSale st s = .ok st') :
    st' = (if dateKey s ≠ "" then
            { st with
              transactions := st.transactions ++ [mkTx s (saleAmount s)]
              successful_count := st.successful_count + 1
              total_revenue := st.total_revenue + saleAmount s
              payment_types := bumpPay st.payment_types "CARD" (saleAmount s)
              outlet_agg := bumpAgg st.outlet_agg (s.outlet_name.getD "Unknown") (saleAmount s)
              daily_agg := bumpAgg st.daily_agg (dateKey s) (saleAmount s) }
          else
            { st with
              transactions := st.transactions ++ [mkTx s (saleAmount s)]
              successful_count := st.successful_count + 1
              total_revenue := st.total_revenue + saleAmount s
              payment_types := bumpPay st.payment_types "CARD" (saleAmount s)
              outlet_agg := bumpAgg st.outlet_agg (s.outlet_name.getD "Unknown") (saleAmount s) }) := by
  have hp := processSale_ok_amount h
  unfold processSale at h
  rw [hp] at h
  by_cases hd : dateKey s ≠ "" <;> simp [hd] at h ⊢ <;> exact h.symm

/-! ## Association-list bucket lemmas -/

theorem bumpAgg_sum_rev (m : List (String × ℚ × ℕ)) (k : String) (amt : ℚ) :
    ((bumpAgg m k amt).map fun p => p.2.1).sum = (m.map fun p => p.2.1).sum + amt := by
  induction m with
  | nil => simp [bumpAgg]
  | cons p rest ih =>
    obtain ⟨k', r, c⟩ := p
    by_cases hk : k' = k
    · simp [bumpAgg, hk]; ring
    · simp [bumpAgg, hk, ih]; ring

theorem bumpAgg_sum_cnt (m : List (String × ℚ × ℕ)) (k : String) (amt : ℚ) :
    ((bumpAgg m k amt).map fun p => p.2.2).sum = (m.map fun p => p.2.2).sum + 1 := by
  induction m with
  | nil => simp [bumpAgg]
  | cons p rest ih =>
    obtain ⟨k', r, c⟩ := p
    by_cases hk : k' = k
    · simp [bumpAgg, hk]; ring
    · simp [bumpAgg, hk, ih]; ring

theorem bumpAgg_mem_key (m : List (String × ℚ × ℕ)) (k : String) (amt : ℚ) :
    k ∈ (bumpAgg m k amt).map fun p => p.1 := by
  induction m with
  | nil => simp [bumpAgg]
  | cons p rest ih =>
    obtain ⟨k', r, c⟩ := p
    by_cases hk : k' = k <;> simp [bumpAgg, hk, ih]

theorem bumpAgg_key_mono (m : List (String × ℚ × ℕ)) (k k' : String) (amt : ℚ)
    (h : k' ∈ m.map fun p => p.1) : k' ∈ (bumpAgg m k amt).map fun p => p.1 := by
  induction m with
  | nil => simp at h
  | cons p rest ih =>
    obtain ⟨k0, r, c⟩ := p
    by_cases hk : k0 = k
    · simp only [bumpAgg, if_pos hk, List.map_cons, List.mem_cons] at h ⊢
      exact h
    · simp only [bumpAgg, if_neg hk, List.map_cons, List.mem_cons] at h ⊢
      rcases h with h | h
      · exact Or.inl h
      · exact Or.inr (ih h)

theorem lookupAgg_bump_self (m : List (String × ℚ × ℕ)) (k : String) (amt : ℚ) :
    lookupAgg (bumpAgg m k amt) k =
      some (match lookupAgg m k with
            | some (r, c) => (r + amt, c + 1)
            | none => (amt, 1)) := by
  induction m with
  | nil => simp [bumpAgg, lookupAgg]
  | cons p rest ih =>
    obtain ⟨k', r, c⟩ := p
    by_cases hk : k' = k
    · simp [bumpAgg, hk, lookupAgg]
    · simp [bumpAgg, hk, lookupAgg, ih]

theorem lookupAgg_bump_other (m : List (String × ℚ × ℕ)) (k k' : String) (amt : ℚ)
    (h : k' ≠ k) : lookupAgg (bumpAgg m k amt) k' = lookupAgg m k' := by
  induction m with
  | nil =>
    simp only [bumpAgg, lookupAgg]
    rw [if_neg (Ne.symm h)]
  | cons p rest ih =>
    obtain ⟨k0, r, c⟩ := p
    by_cases hk : k0 = k
    · subst hk
      simp only [bumpAgg, if_pos rfl, lookupAgg]
      rw [if_neg (fun hh : k0 = k' => h (hh.symm)), if_neg (fun hh : k0 = k' => h (hh.symm))]
    · simp only [bumpAgg, if_neg hk, lookupAgg]
      by_cases hk' : k0 = k'
      · rw [if_pos hk', if_pos hk']
      · rw [if_neg hk', if_neg hk']
        exact ih

theorem bumpPay_sum (m : List (String × ℚ)) (k : String) (amt : ℚ) :
    ((bumpPay m k amt).map fun p => p.2).sum = (m.map fun p => p.2).sum + amt := by
  induction m with
  | nil => simp [bumpPay]
  | cons p rest ih =>
    obtain ⟨k', v⟩ := p
    by_cases hk : k' = k
    · simp [bumpPay, hk]; ring
    · simp [bumpPay, hk, ih]; ring

/-! ## Rounding lemmas -/

theorem round2_zero : round2 0 = 0 := by
  norm_num [round2]

theorem abs_round2_sub (q : ℚ) : |round2 q - q| ≤ 1 / 200 := by
  have h := abs_sub_round (100 * q)
  have h2 : round2 q - q = -((100 * q - (round (100 * q) : ℚ)) / 100) := by
    unfold round2; ring
  rw [h2, abs_neg, abs_div]
  have : |(100 : ℚ)| = 100 := by norm_num
  rw [this]
  linarith [h]

theorem sum_map_round2_sub (l : List ℚ) :
    |(l.map round2).sum - l.sum| ≤ (l.length : ℚ) / 200 := by
  induction l with
  | nil => simp
  | cons a rest ih =>
    have key : (round2 a + (rest.map round2).sum) - (a + rest.sum) =
        (round2 a - a) + ((rest.map round2).sum - rest.sum) := by ring
    calc |((a :: rest).map round2).sum - (a :: rest).sum|
        = |(round2 a - a) + ((rest.map round2).sum - rest.sum)| := by
          simp only [List.map_cons, List.sum_cons]; rw [key]
      _ ≤ |round2 a - a| + |(rest.map round2).sum - rest.sum| := abs_add _ _
      _ ≤ 1 / 200 + (rest.length : ℚ) / 200 := by
          exact add_le_add (abs_round2_sub a) ih
      _ = (((a :: rest).length : ℚ)) / 200 := by
          simp [List.length_cons]; ring

/-! ## The canonical transaction list, elementwise -/

theorem mapTx_append_single (acc : List Sale) (s : Sale) (txs : List Tx) (a : ℚ)
    (h1 : mapTx acc = some txs) (h2 : pyFloat s.total_inc_vat = some a) :
    mapTx (acc ++ [s]) = some (txs ++ [mkTx s a]) := by
  induction acc generalizing txs with
  | nil =>
    simp only [mapTx] at h1
    cases h1
    simp [mapTx, h2]
  | cons x rest ih =>
    cases hx : pyFloat x.total_inc_vat with
    | none => simp [mapTx, hx] at h1
    | some ax =>
      cases hr : mapTx rest with
      | none => simp [mapTx, hx, hr] at h1
      | some txsr =>
        simp only [mapTx, hx, hr] at h1
        cases h1
        simp only [List.cons_append, mapTx, hx, List.append_eq, ih txsr hr]

/-- The updated fields of one successful aggregation step. -/
theorem processSale_ok_fields {st : AggState} {s : Sale} {st' : AggState}
    (h : processSale st s = .ok st') :
    st'.transactions = st.transactions ++ [mkTx s (saleAmount s)] ∧
    st'.successful_count = st.successful_count + 1 ∧
    st'.total_revenue = st.total_revenue + saleAmount s ∧
    st'.payment_types = bumpPay st.payment_types "CARD" (saleAmount s) ∧
    st'.outlet_agg = bumpAgg st.outlet_agg (s.outlet_name.getD "Unknown") (saleAmount s) ∧
    st'.daily_agg = (if dateKey s ≠ "" then bumpAgg st.daily_agg (dateKey s) (saleAmount s)
                     else st.daily_agg) := by
  have he := processSale_ok_eq h
  by_cases hd : dateKey s ≠ ""
  · rw [if_pos hd] at he
    subst he
    simp [hd]
  · rw [if_neg hd] at he
    subst he
    simp [hd]

/-- The bundle of invariants of the aggregation loop: the transactions
list is the elementwise normalization of the input in order, the summary
accumulators count and sum it, and the outlet and payment-type buckets
partition revenue and count. -/
theorem aggSales_ok_props (sales : List Sale) (st : AggState) (h : aggSales sales = .ok st) :
    mapTx sales = some st.transactions ∧
    st.successful_count = sales.length ∧
    st.total_revenue = (st.transactions.map (fun t => t.amount)).sum ∧
    (∀ t ∈ st.transactions,
      t.tx_status = "SUCCESSFUL" ∧ t.payment_type = "CARD" ∧ t.currency = "GBP") ∧
    ((st.outlet_agg.map fun p => p.2.1).sum = st.total_revenue) ∧
    ((st.outlet_agg.map fun p => p.2.2).sum = st.successful_count) ∧
    (∀ s ∈ sales, (s.outlet_name.getD "Unknown") ∈ st.outlet_agg.map fun p => p.1) ∧
    ((st.payment_types.map fun p => p.2).sum = st.total_revenue) := by
  refine aggSales_rel
    (fun st acc =>
      mapTx acc = some st.transactions ∧
      st.successful_count = acc.length ∧
      st.total_revenue = (st.transactions.map (fun t => t.amount)).sum ∧
      (∀ t ∈ st.transactions,
        t.tx_status = "SUCCESSFUL" ∧ t.payment_type = "CARD" ∧ t.currency = "GBP") ∧
      ((st.outlet_agg.map fun p => p.2.1).sum = st.total_revenue) ∧
      ((st.outlet_agg.map fun p => p.2.2).sum = st.successful_count) ∧
      (∀ s ∈ acc, (s.outlet_name.getD "Unknown") ∈ st.outlet_agg.map fun p => p.1) ∧
      ((st.payment_types.map fun p => p.2).sum = st.total_revenue))
    ?_ ?_ sales st h
  · exact ⟨rfl, rfl, rfl, by simp [initState], by simp [initState], by simp [initState],
      by simp, by simp [initState]⟩
  · intro st acc s st' hps hR
    obtain ⟨h1, h2, h3, h4, h5, h6, h7, h8⟩ := hR
    obtain ⟨f1, f2, f3, f4, f5, f6⟩ := processSale_ok_fields hps
    have hamt := processSale_ok_amount hps
    refine ⟨?_, ?_, ?_, ?_, ?_, ?_, ?_, ?_⟩
    · rw [f1]; exact mapTx_append_single acc s st.transactions (saleAmount s) h1 hamt
    · rw [f2, h2]; simp
    · rw [f3, f1, h3]; simp [mkTx]
    · rw [f1]
      intro t ht
      rcases List.mem_append.mp ht with ht | ht
      · exact h4 t ht
      · simp at ht; subst ht; simp [mkTx]
    · rw [f5, f3, bumpAgg_sum_rev, h5]
    · rw [f5, f2, bumpAgg_sum_cnt, h6]
    · rw [f5]
      intro s' hs'
      rcases List.mem_append.mp hs' with hs' | hs'
      · exact bumpAgg_key_mono _ _ _ _ (h7 s' hs')
      · simp at hs'; subst hs'; exact bumpAgg_mem_key _ _ _
    · rw [f4, f3, bumpPay_sum, h8]

/-! ## Daily grouping: lookup characterization -/

theorem dailyPred_iff (s : Sale) (k : String) (hk : k ≠ "") :
    dailyPred k s = true ↔ dateKey s = k := by
  unfold dailyPred dateKey
  by_cases hd : s.sale_date_time.getD "" = ""
  · simp [hd, Ne.symm hk]
  · simp [hd]

theorem dailySpec_append_true (acc : List Sale) (s : Sale) (k : String)
    (hpred : dailyPred k s = true) :
    dailySpec (acc ++ [s]) k =
      some (match dailySpec acc k with
            | some (r, c) => (r + saleAmount s, c + 1)
            | none => (saleAmount s, 1)) := by
  unfold dailySpec
  rw [List.filter_append]
  have h1 : [s].filter (dailyPred k) = [s] := by simp [hpred]
  rw [h1]
  cases hempty : acc.filter (dailyPred k) with
  | nil => simp
  | cons a l =>
    simp [List.map_append, List.sum_append]
    ring

theorem dailySpec_append_false (acc : List Sale) (s : Sale) (k : String)
    (hpred : dailyPred k s = false) :
    dailySpec (acc ++ [s]) k = dailySpec acc k := by
  unfold dailySpec
  rw [List.filter_append]
  have h1 : [s].filter (dailyPred k) = [] := by simp [hpred]
  rw [h1, List.append_nil]

/-- For every reachable aggregation state, the daily buckets hold exactly
the per-10-character-prefix revenue sums and counts of the input. -/
theorem aggSales_daily_lookup (sales : List Sale) (st : AggState) (h : aggSales sales = .ok st) :
    ∀ k, k ≠ "" → lookupAgg st.daily_agg k = dailySpec sales k := by
  refine aggSales_rel
    (fun st acc => ∀ k, k ≠ "" → lookupAgg st.daily_agg k = dailySpec acc k) ?_ ?_ sales st h
  · intro k hk
    simp [initState, lookupAgg, dailySpec]
  · intro st acc s st' hps hR k hk
    obtain ⟨-, -, -, -, -, f6⟩ := processSale_ok_fields hps
    rw [f6]
    have hRk := hR k hk
    by_cases hdk : dateKey s = k
    · have hne : dateKey s ≠ "" := by rw [hdk]; exact hk
      have hpred : dailyPred k s = true := (dailyPred_iff s k hk).mpr hdk
      rw [if_pos hne, hdk, lookupAgg_bump_self, dailySpec_append_true acc s k hpred, hRk]
    · have hpred : dailyPred k s = false := by
        rcases hb : dailyPred k s with _ | _
        · rfl
        · exact absurd ((dailyPred_iff s k hk).mp hb) hdk
      rw [dailySpec_append_false acc s k hpred]
      by_cases hne : dateKey s ≠ ""
      · rw [if_pos hne, lookupAgg_bump_other _ _ _ _ (fun hh => hdk hh.symm), hRk]
      · rw [if_neg hne]
        exact hRk

/-- When every sale has a nonempty timestamp, the unrounded daily
revenues sum to the unrounded total revenue. -/
theorem aggSales_daily_sum (sales : List Sale) (st : AggState) (h : aggSales sales = .ok st)
    (hd : ∀ s ∈ sales, dateKey s ≠ "") :
    (st.daily_agg.map fun p => p.2.1).sum = st.total_revenue := by
  refine (aggSales_rel
    (fun st acc => (∀ s ∈ acc, dateKey s ≠ "") →
      (st.daily_agg.map fun p => p.2.1).sum = st.total_revenue) ?_ ?_ sales st h) hd
  · intro _
    simp [initState]
  · intro st acc s st' hps hR hall
    obtain ⟨-, -, f3, -, -, f6⟩ := processSale_ok_fields hps
    have hs : dateKey s ≠ "" := hall s (by simp)
    have hacc : ∀ x ∈ acc, dateKey x ≠ "" := fun x hx => hall x (by simp [hx])
    rw [f6, if_pos hs, f3, bumpAgg_sum_rev, hR hacc]

/-! ## Sorted daily output -/

theorem sortedDaily_dates_sorted (m : List (String × ℚ × ℕ)) :
    List.Sorted (· ≤ ·) ((sortedDaily m).map fun e => e.date) := by
  unfold sortedDaily
  rw [List.map_map]
  have hs := List.sorted_insertionSort keyLE m
  unfold List.Sorted at hs ⊢
  rw [List.pairwise_map]
  exact hs.imp (fun h => h)

theorem sortedDaily_rev_sum (m : List (String × ℚ × ℕ)) :
    ((sortedDaily m).map fun e => e.revenue).sum = ((m.map fun p => p.2.1).map round2).sum := by
  unfold sortedDaily
  rw [List.map_map, List.map_map]
  exact List.Perm.sum_eq (List.Perm.map _ (List.perm_insertionSort keyLE m))

theorem sortedDaily_length (m : List (String × ℚ × ℕ)) :
    (sortedDaily m).length = m.length := by
  unfold sortedDaily
  rw [List.length_map, List.length_insertionSort]

/-! ## Failure propagation -/

/-- A malformed amount anywhere in the input makes the whole aggregation
loop fail. -/
theorem aggSales_error_of_malformed :
    ∀ (sales : List Sale), (∃ s ∈ sales, pyFloat s.total_inc_vat = none) →
      ∃ msg, aggSales sales = .error msg := by
  suffices h : ∀ (sales : List Sale) (st0 : AggState),
      (∃ s ∈ sales, pyFloat s.total_inc_vat = none) →
      ∃ msg, List.foldlM processSale st0 sales = .error msg by
    intro sales hex
    exact h sales initState hex
  intro sales
  induction sales with
  | nil =>
    intro st0 hex
    simp at hex
  | cons s rest ih =>
    intro st0 hex
    rw [List.foldlM_cons]
    cases hps : processSale st0 s with
    | error e => exact ⟨e, by simp [Bind.bind, Except.bind]⟩
    | ok st1 =>
      have hsok : pyFloat s.total_inc_vat ≠ none := by
        intro hn
        unfold processSale at hps
        rw [hn] at hps
        exact absurd hps (by simp)
      rcases hex with ⟨x, hx, hxn⟩
      rcases List.mem_cons.mp hx with rfl | hx'
      · exact absurd hxn hsok
      · obtain ⟨msg, hmsg⟩ := ih st1 ⟨x, hx', hxn⟩
        exact ⟨msg, by simp [Bind.bind, Except.bind, hmsg]⟩

/-! ## Hourly view lemmas -/

theorem hourlyStep_map_hour (buckets : List HourEntry) (t : CTx) :
    (hourlyStep buckets t).map (fun b => b.hour) = buckets.map (fun b => b.hour) := by
  rcases ht : t.hour with _ | h
  · simp [hourlyStep, ht]
  · by_cases hst : t.ctx_status = "SUCCESSFUL"
    · simp only [hourlyStep, ht, if_pos hst, List.map_map]
      apply List.map_congr_left
      intro b _
      by_cases hb : b.hour = h.val <;> simp [hb]
    · simp [hourlyStep, ht, hst]

theorem hourlyFold_map_hour (txs : List CTx) :
    ∀ buckets : List HourEntry,
      (txs.foldl hourlyStep buckets).map (fun b => b.hour) = buckets.map (fun b => b.hour) := by
  induction txs with
  | nil => intro buckets; rfl
  | cons t rest ih =>
    intro buckets
    rw [List.foldl_cons, ih, hourlyStep_map_hour]

theorem mapTx_length : ∀ (sales : List Sale) (txs : List Tx),
    mapTx sales = some txs → txs.length = sales.length := by
  intro sales
  induction sales with
  | nil =>
    intro txs h
    simp only [mapTx] at h
    cases h
    rfl
  | cons s rest ih =>
    intro txs h
    cases hx : pyFloat s.total_inc_vat with
    | none => simp [mapTx, hx] at h
    | some a =>
      cases hr : mapTx rest with
      | none => simp [mapTx, hx, hr] at h
      | some txsr =>
        simp only [mapTx, hx, hr] at h
        cases h
        simp [ih txsr hr]

/-- Concrete evaluation of the loop on the single dated sale. -/
theorem aggSales_saleDated : aggSales [saleDated] = .ok stDated := by
  norm_num [aggSales, List.foldlM, processSale, pyFloat, initState, dateKey, saleDated,
    bumpPay, bumpAgg, stDated]
  decide

/-! ## The claims -/

/-- C2: for every input sequence, a record contributes to
`total_revenue` exactly when its canonical status is `SUCCESSFUL` (the
normalizer assigns `SUCCESSFUL` to every record, and the revenue total
is the sum over exactly the SUCCESSFUL canonical records), and
`failed_transactions` equals the count of canonical records with status
`FAILED` (both are zero). -/
theorem C2_revenue_iff_successful (sales : List Sale) (st : AggState)
    (h : aggSales sales = .ok st) :
    st.total_revenue =
      ((st.transactions.filter fun t => t.tx_status == "SUCCESSFUL").map
        fun t => t.amount).sum ∧
    (buildResponse st).summary.total_revenue = round2 st.total_revenue ∧
    (buildResponse st).summary.failed_transactions =
      (st.transactions.filter fun t => t.tx_status == "FAILED").length := by
  obtain ⟨-, -, h3, h4, -, -, -, -⟩ := aggSales_ok_props sales st h
  have hf : (st.transactions.filter fun t => t.tx_status == "SUCCESSFUL") = st.transactions :=
    List.filter_eq_self.mpr (fun t ht => by simp [(h4 t ht).1])
  have hn : (st.transactions.filter fun t => t.tx_status == "FAILED") = [] := by
    rw [List.filter_eq_nil_iff]
    intro t ht
    simp [(h4 t ht).1]
  refine ⟨by rw [hf]; exact h3, rfl, ?_⟩
  rw [hn]
  rfl

/-- C2 witness: instantiation on the single dated sale. -/
theorem C2_witness :
    stDated.total_revenue =
      ((stDated.transactions.filter fun t => t.tx_status == "SUCCESSFUL").map
        fun t => t.amount).sum ∧
    (buildResponse stDated).summary.total_revenue = round2 stDated.total_revenue ∧
    (buildResponse stDated).summary.failed_transactions =
      (stDated.transactions.filter fun t => t.tx_status == "FAILED").length :=
  C2_revenue_iff_successful [saleDated] stDated aggSales_saleDated

/-- C5: the hourly distribution view (modelled from the spec, absent
from `src/app.py`) always has exactly 24 entries whose hours are
`0, 1, …, 23` in ascending order, for every input including the empty
one, where every bucket is zero. -/
theorem C5_hourly_always_24 (txs : List CTx) :
    (hourlyView txs).length = 24 ∧
    ((hourlyView txs).map fun b => b.hour) = List.range 24 ∧
    (∀ b ∈ hourlyView [], b.revenue = 0 ∧ b.count = 0) := by
  have hmap : ((hourlyView txs).map fun b => b.hour) = List.range 24 := by
    unfold hourlyView
    rw [hourlyFold_map_hour]
    unfold hourlySeed
    rw [List.map_map]
    rw [show ((fun b : HourEntry => b.hour) ∘ fun h : ℕ => (⟨h, 0, 0⟩ : HourEntry)) = id from rfl]
    exact List.map_id _
  refine ⟨?_, hmap, ?_⟩
  · have hlen := congrArg List.length hmap
    simpa using hlen
  · intro b hb
    have hmem : ∃ h ∈ List.range 24, (⟨h, 0, 0⟩ : HourEntry) = b := by
      simpa [hourlyView, hourlySeed] using hb
    obtain ⟨hh, -, hbe⟩ := hmem
    rw [← hbe]
    exact ⟨rfl, rfl⟩

/-- C7: `avg_transaction` is `total_revenue / total_transactions` with an
explicit guard making it `0` when the count is `0`; the division-by-zero
branch is never taken. -/
theorem C7_avg_guard (sales : List Sale) (st : AggState) (_h : aggSales sales = .ok st) :
    ((buildResponse st).summary.total_transactions = 0 →
      (buildResponse st).summary.avg_transaction = 0) ∧
    (0 < (buildResponse st).summary.total_transactions →
      pyAvg st.total_revenue st.successful_count * (st.successful_count : ℚ) =
        st.total_revenue ∧
      (buildResponse st).summary.avg_transaction =
        round2 (st.total_revenue / (st.successful_count : ℚ))) := by
  constructor
  · intro h0
    have hc : st.successful_count = 0 := by simpa [buildResponse] using h0
    simp [buildResponse, pyAvg, hc, round2_zero]
  · intro hpos
    have hc : 0 < st.successful_count := by simpa [buildResponse] using hpos
    have hne : (st.successful_count : ℚ) ≠ 0 := Nat.cast_ne_zero.mpr hc.ne'
    constructor
    · rw [pyAvg, if_pos hc]
      field_simp
    · simp [buildResponse, pyAvg, hc]

/-- C7 witness: instantiation on the single dated sale. -/
theorem C7_witness :
    ((buildResponse stDated).summary.total_transactions = 0 →
      (buildResponse stDated).summary.avg_transaction = 0) ∧
    (0 < (buildResponse stDated).summary.total_transactions →
      pyAvg stDated.total_revenue stDated.successful_count * (stDated.successful_count : ℚ) =
        stDated.total_revenue ∧
      (buildResponse stDated).summary.avg_transaction =
        round2 (stDated.total_revenue / (stDated.successful_count : ℚ))) :=
  C7_avg_guard [saleDated] stDated aggSales_saleDated

/-- C8: the date-range resolver returns `from = now - daysBack` days
with time forced to 00:00:00 and `to = now` with time forced to
23:59:59; the `/api/data` views default `daysBack` to 30 while the
spec's hourly view defaults it to 7. -/
theorem C8_date_range (daysBack : ℤ) (now : Instant) :
    (resolveRange daysBack now).1.day = now.day - daysBack ∧
    (resolveRange daysBack now).1.hour = 0 ∧
    (resolveRange daysBack now).1.minute = 0 ∧
    (resolveRange daysBack now).1.second = 0 ∧
    (resolveRange daysBack now).2.day = now.day ∧
    (resolveRange daysBack now).2.hour = 23 ∧
    (resolveRange daysBack now).2.minute = 59 ∧
    (resolveRange daysBack now).2.second = 59 ∧
    dataDaysParam none = 30 ∧ hourlyDaysParam none = 7 :=
  ⟨rfl, rfl, rfl, rfl, rfl, rfl, rfl, rfl, rfl, rfl⟩

/-- C9: the response's `transactions` list is the 100-element truncation
of the full in-order normalized list, while the summary totals count and
sum all fetched records, including the truncated ones. -/
theorem C9_transactions_truncated (sales : List Sale) (st : AggState)
    (h : aggSales sales = .ok st) :
    mapTx sales = some st.transactions ∧
    (buildResponse st).transactions = st.transactions.take 100 ∧
    (buildResponse st).transactions.length = min 100 sales.length ∧
    (buildResponse st).summary.total_transactions = sales.length ∧
    (buildResponse st).summary.total_revenue =
      round2 ((st.transactions.map fun t => t.amount).sum) := by
  obtain ⟨h1, h2, h3, -, -, -, -, -⟩ := aggSales_ok_props sales st h
  refine ⟨h1, rfl, ?_, ?_, ?_⟩
  · have hlen : st.transactions.length = sales.length := mapTx_length sales st.transactions h1
    simp [buildResponse, List.length_take, hlen]
  · simp [buildResponse, h2]
  · simp [buildResponse, h3]

/-- C9 witness: instantiation on the single dated sale. -/
theorem C9_witness :
    mapTx [saleDated] = some stDated.transactions ∧
    (buildResponse stDated).transactions = stDated.transactions.take 100 ∧
    (buildResponse stDated).transactions.length = min 100 [saleDated].length ∧
    (buildResponse stDated).summary.total_transactions = [saleDated].length ∧
    (buildResponse stDated).summary.total_revenue =
      round2 ((stDated.transactions.map fun t => t.amount).sum) :=
  C9_transactions_truncated [saleDated] stDated aggSales_saleDated

/-- C10: the outlet buckets partition all records — their revenues sum to
`total_revenue` and their counts to `total_transactions` (before output
rounding), every record being assigned the outlet `'Unknown'` when the
outlet name is absent. -/
theorem C10_outlet_partition (sales : List Sale) (st : AggState)
    (h : aggSales sales = .ok st) :
    ((st.outlet_agg.map fun p => p.2.1).sum = st.total_revenue) ∧
    ((st.outlet_agg.map fun p => p.2.2).sum =
      (buildResponse st).summary.total_transactions) ∧
    (∀ s ∈ sales, (s.outlet_name.getD "Unknown") ∈ st.outlet_agg.map fun p => p.1) ∧
    (buildResponse st).outlets = some (mkOutlets st.outlet_agg) := by
  obtain ⟨-, -, -, -, h5, h6, h7, -⟩ := aggSales_ok_props sales st h
  exact ⟨h5, by simpa [buildResponse] using h6, h7, rfl⟩

/-- C10 witness: instantiation on the single dated sale. -/
theorem C10_witness :
    ((stDated.outlet_agg.map fun p => p.2.1).sum = stDated.total_revenue) ∧
    ((stDated.outlet_agg.map fun p => p.2.2).sum =
      (buildResponse stDated).summary.total_transactions) ∧
    (∀ s ∈ [saleDated], (s.outlet_name.getD "Unknown") ∈ stDated.outlet_agg.map fun p => p.1) ∧
    (buildResponse stDated).outlets = some (mkOutlets stDated.outlet_agg) :=
  C10_outlet_partition [saleDated] stDated aggSales_saleDated

/-- C1 counterexample: a record with an absent `sale_date_time` and
amount 10 is counted in `total_revenue` but lands in no daily bucket, so
the daily revenues (an empty sum) miss the total by 10, far beyond the
claimed 0.01-per-bucket tolerance. -/
theorem C1_counterexample :
    ¬ (|(((get_data ⟨200, [saleNoDate]⟩).2.daily.map fun e => e.revenue).sum
          - (get_data ⟨200, [saleNoDate]⟩).2.summary.total_revenue)|
        ≤ ((get_data ⟨200, [saleNoDate]⟩).2.daily.length : ℚ) * (1 / 100)) := by
  norm_num [get_data, aggSales, List.foldlM, processSale, pyFloat, initState, buildResponse,
    round2, dateKey, saleNoDate, sortedDaily, mkOutlets, pyAvg, zeroSummary]

/-- C1 (amended): when every record has a nonempty `sale_date_time`, the
sum of the rounded daily revenues stays within 0.01 per daily bucket of
the rounded `total_revenue`. -/
theorem C1_daily_sum_tolerance (sales : List Sale) (st : AggState)
    (h : aggSales sales = .ok st) (hd : ∀ s ∈ sales, dateKey s ≠ "") :
    |(((buildResponse st).daily.map fun e => e.revenue).sum
        - (buildResponse st).summary.total_revenue)|
      ≤ ((buildResponse st).daily.length : ℚ) * (1 / 100) := by
  have hsum := aggSales_daily_sum sales st h hd
  have h1 : ((buildResponse st).daily.map fun e => e.revenue).sum
      = ((st.daily_agg.map fun p => p.2.1).map round2).sum := sortedDaily_rev_sum st.daily_agg
  have h2 : (buildResponse st).summary.total_revenue = round2 st.total_revenue := rfl
  have h3 : ((buildResponse st).daily.length : ℚ) = (st.daily_agg.length : ℚ) := by
    simp [buildResponse, sortedDaily_length]
  rw [h1, h2, h3]
  rcases Nat.eq_zero_or_pos st.daily_agg.length with hn | hn
  · have hm0 : st.daily_agg = [] := List.length_eq_zero.mp hn
    rw [hm0] at hsum ⊢
    simp only [List.map_nil, List.sum_nil] at hsum ⊢
    rw [← hsum, round2_zero]
    simp
  · have hb1 := sum_map_round2_sub (st.daily_agg.map fun p => p.2.1)
    rw [List.length_map, hsum] at hb1
    have hb2 := abs_round2_sub st.total_revenue
    have hone : (1 : ℚ) ≤ (st.daily_agg.length : ℚ) := by exact_mod_cast hn
    calc |((st.daily_agg.map fun p => p.2.1).map round2).sum - round2 st.total_revenue|
        ≤ |((st.daily_agg.map fun p => p.2.1).map round2).sum - st.total_revenue|
            + |st.total_revenue - round2 st.total_revenue| :=
          abs_sub_le _ st.total_revenue _
      _ = |((st.daily_agg.map fun p => p.2.1).map round2).sum - st.total_revenue|
            + |round2 st.total_revenue - st.total_revenue| := by
          rw [abs_sub_comm st.total_revenue]
      _ ≤ (st.daily_agg.length : ℚ) / 200 + 1 / 200 := add_le_add hb1 hb2
      _ ≤ (st.daily_agg.length : ℚ) * (1 / 100) := by linarith

/-- C1 witness: the amended bound instantiated on the single dated
sale. -/
theorem C1_witness :
    |(((buildResponse stDated).daily.map fun e => e.revenue).sum
        - (buildResponse stDated).summary.total_revenue)|
      ≤ ((buildResponse stDated).daily.length : ℚ) * (1 / 100) :=
  C1_daily_sum_tolerance [saleDated] stDated aggSales_saleDated
    (by intro s hs; simp at hs; subst hs; decide)

/-- C3 counterexample: with upstream status 503 the endpoint answers
HTTP 200 (not 500), and the body is not the bare error object — it
carries a zeroed summary alongside the error message. -/
theorem C3_counterexample :
    (get_data ⟨503, []⟩).1 = 200 ∧
    ¬ ((get_data ⟨503, []⟩).1 = 500) ∧
    (get_data ⟨503, []⟩).2.error = some "API Error: 503" ∧
    (get_data ⟨503, []⟩).2.summary = zeroSummary := by
  exact ⟨rfl, by decide, by decide, rfl⟩

/-- C3 (amended): when the upstream call returns any status other
than 200, `get_data` responds with HTTP 200 and a full-shaped body —
zeroed summary, empty daily and transactions, no outlets key — whose
`error` field carries `API Error: <status>`. -/
theorem C3_upstream_error_response (u : UpstreamResp) (h : u.status_code ≠ 200) :
    get_data u =
      (200, { summary := zeroSummary, daily := [], outlets := none, transactions := [],
              error := some ("API Error: " ++ toString u.status_code) }) := by
  simp [get_data, h]

/-- C3 witness: the amended statement at upstream status 503. -/
theorem C3_witness :
    get_data ⟨503, []⟩ =
      (200, { summary := zeroSummary, daily := [], outlets := none, transactions := [],
              error := some ("API Error: " ++ toString 503) }) :=
  C3_upstream_error_response ⟨503, []⟩ (by decide)

/-- C4 counterexample: a malformed amount on the first record makes the
endpoint answer HTTP 500 with nothing aggregated — the well-formed
second record is lost, so a malformed amount does abort aggregation of
the remaining records. -/
theorem C4_counterexample :
    (get_data ⟨200, [saleMalformed, saleDated]⟩).1 = 500 ∧
    (get_data ⟨200, [saleMalformed, saleDated]⟩).2.transactions = [] ∧
    (get_data ⟨200, [saleMalformed, saleDated]⟩).2.summary.total_revenue = 0 ∧
    (get_data ⟨200, [saleMalformed, saleDated]⟩).2.error =
      some "could not convert string to float: abc" := by
  refine ⟨?_, ?_, ?_, ?_⟩ <;>
    simp +decide [get_data, aggSales, List.foldlM, processSale, pyFloat, pyFloatStr,
      parseUnsigned, splitDot, saleMalformed, initState, badStr, zeroSummary]

/-- C4 (amended): a numeric amount passes through and a decimal string
is coerced, an absent amount defaults to 0 — but a malformed
(non-numeric) amount raises, and the whole aggregation aborts: the
endpoint returns HTTP 500 with zeroed summary and no records
aggregated. -/
theorem C4_amount_coercion (sales : List Sale)
    (hex : ∃ s ∈ sales, pyFloat s.total_inc_vat = none) :
    pyFloat none = some 0 ∧
    (∀ q, pyFloat (some (.jnum q)) = some q) ∧
    pyFloat (some (.jstr "12.5")) = some (25 / 2) ∧
    ∃ msg, get_data ⟨200, sales⟩ =
      (500, { summary := zeroSummary, daily := [], outlets := some [],
              transactions := [], error := some msg }) := by
  refine ⟨rfl, fun q => rfl, ?_, ?_⟩
  · show pyFloatStr "12.5" = some (25 / 2)
    simp +decide [pyFloatStr, parseUnsigned, splitDot, digitsVal]
    norm_num
  · obtain ⟨msg, hmsg⟩ := aggSales_error_of_malformed sales hex
    refine ⟨msg, ?_⟩
    simp [get_data, hmsg]

/-- C4 witness: the amended statement at the single malformed sale. -/
theorem C4_witness :
    pyFloat none = some 0 ∧
    (∀ q, pyFloat (some (.jnum q)) = some q) ∧
    pyFloat (some (.jstr "12.5")) = some (25 / 2) ∧
    ∃ msg, get_data ⟨200, [saleMalformed]⟩ =
      (500, { summary := zeroSummary, daily := [], outlets := some [],
              transactions := [], error := some msg }) :=
  C4_amount_coercion [saleMalformed] ⟨saleMalformed, by simp, by decide⟩

/-- C6: the daily series groups records by the first 10 characters of
the raw timestamp string — bucket `k` holds exactly the revenue sum and
count of records whose nonempty raw timestamp has prefix `k` — and the
output sequence is sorted ascending by that date string. -/
theorem C6_daily_group_sorted (sales : List Sale) (st : AggState)
    (h : aggSales sales = .ok st) :
    List.Sorted (· ≤ ·) (((buildResponse st).daily).map fun e => e.date) ∧
    (∀ k, k ≠ "" → lookupAgg st.daily_agg k = dailySpec sales k) ∧
    (buildResponse st).daily = sortedDaily st.daily_agg :=
  ⟨sortedDaily_dates_sorted st.daily_agg, aggSales_daily_lookup sales st h, rfl⟩

/-- C6 witness: instantiation on the single dated sale. -/
theorem C6_witness :
    List.Sorted (· ≤ ·) (((buildResponse stDated).daily).map fun e => e.date) ∧
    (∀ k, k ≠ "" → lookupAgg stDated.daily_agg k = dailySpec [saleDated] k) ∧
    (buildResponse stDated).daily = sortedDaily stDated.daily_agg :=
  C6_daily_group_sorted [saleDated] stDated aggSales_saleDated
